import Mathlib

/-
Verification of the tabular-learning core of ML_DATA_ANALYZER.

The embedded code comes from the repository's TypeScript sources
(the ML utilities module: analyzeData, detectProblemType, prepareFeatures,
trainModel, LogisticRegression, DecisionTree, calculateMetrics,
calculateConfusionMatrix).  JavaScript numbers are modelled as exact
rationals (ℚ); every place where exact-rational and IEEE-double semantics
could diverge on the inputs considered is noted in a comment next to the
definition concerned.
-/

/-! ## Cell values

A dataset cell is a JavaScript scalar: a number, a string, `null`, or
`undefined` (an absent property reads as `undefined`).  `null` and
`undefined` are distinguished because `Number(null) = 0` while
`Number(undefined) = NaN`. -/

inductive CellVal where
  | null : CellVal
  | undef : CellVal
  | num : ℚ → CellVal
  | str : String → CellVal
deriving DecidableEq, Repr

/-- A row is an ordered association list from column name to cell value,
mirroring a JS object's own-property insertion order. -/
def Row : Type := List (String × CellVal)

instance : DecidableEq Row := by unfold Row; infer_instance

/-- Reading `row[col]`: a missing property yields `undefined`. -/
def rowGet (r : Row) (c : String) : CellVal :=
  match r.lookup c with
  | some v => v
  | none => CellVal.undef

/-- The missing-value test used throughout the module:
`val !== null && val !== undefined && val !== ''` (negated). -/
def isMissing (v : CellVal) : Bool :=
  v = CellVal.null || v = CellVal.undef || v = CellVal.str ""

/-- Decimal-numeral parser modelling the JS `Number(string)` coercion on the
string shapes this program meets: the empty string coerces to `0`, an
optional minus sign followed by decimal digits coerces to the corresponding
integer, and anything else is `NaN` (`none`).  (Full JS `Number` also
accepts floats, hex and exponent forms; no claim depends on those.) -/
def parseNum (s : String) : Option ℚ :=
  let digitsVal (cs : List Char) : Option ℚ :=
    if cs ≠ [] ∧ cs.all Char.isDigit then
      some ((cs.foldl (fun acc c => 10 * acc + (c.toNat - 48)) 0 : ℕ) : ℚ)
    else none
  match s.data with
  | [] => some 0
  | '-' :: rest => (digitsVal rest).map (fun q => -q)
  | cs => digitsVal cs

/-- JS `Number(v)` on a cell; `none` stands for `NaN`.  `Number(null) = 0`,
`Number(undefined) = NaN`, a number is itself, a string is parsed. -/
def jsToNumber : CellVal → Option ℚ
  | CellVal.null => some 0
  | CellVal.undef => none
  | CellVal.num q => some q
  | CellVal.str s => parseNum s

/-- The numeric test `typeof val === 'number' || !isNaN(Number(val))`. -/
def isNumericVal (v : CellVal) : Bool :=
  match v with
  | CellVal.num _ => true
  | v => (jsToNumber v).isSome

/-- First UTF-16 code unit of a string: `s.charCodeAt(0)`.  Only ever
applied to non-empty strings by the encoder (the default is irrelevant). -/
def charCode0 (s : String) : ℕ :=
  match s.data with
  | [] => 0
  | c :: _ => c.toNat

/-! ## List helpers -/

/-- Distinct elements in first-occurrence order, as `new Set(list)`
enumerates them. -/
def dedupKeepFirst {α : Type} [DecidableEq α] (l : List α) : List α :=
  l.foldl (fun acc v => if v ∈ acc then acc else acc ++ [v]) []

/-- Ascending numeric sort, as `values.sort((a, b) => a - b)`. -/
def sortAsc (l : List ℚ) : List ℚ :=
  l.insertionSort (· ≤ ·)

/-! ## Dataset profiler (`analyzeData`)

`analyzeData` throws `Error('No data to analyze')` on an empty dataset
(the spec's `EmptyDatasetError`) and otherwise profiles every column. -/

inductive AnalysisError where
  | emptyDataset : AnalysisError
deriving DecidableEq, Repr

/-- All cells of one column, in row order: `data.map(row => row[col])`. -/
def columnCells (data : List Row) (col : String) : List CellVal :=
  data.map (fun r => rowGet r col)

/-- Non-missing cells of a column. -/
def nonNullCells (cells : List CellVal) : List CellVal :=
  cells.filter (fun v => ¬ isMissing v)

/-- Non-missing cells passing the numeric test. -/
def numericCells (cells : List CellVal) : List CellVal :=
  (nonNullCells cells).filter (fun v => isNumericVal v)

/-- Column type classification:
`numericalValues.length > nonNullValues.length * 0.8`, with `0.8` exact.
For the integer counts that occur here the IEEE-double comparison agrees
with the exact rational one (`n * 0.8` rounds to exactly `4n/5` whenever
`5 ∣ n`, and otherwise sits far from any integer). -/
def isNumericalCol (cells : List CellVal) : Bool :=
  ((numericCells cells).length : ℚ) > ((nonNullCells cells).length : ℚ) * (0.8 : ℚ)

/-- Coerced statistics values of a column:
`data.map(row => Number(row[col])).filter(val => !isNaN(val))`.
Note the source coerces every row, not just non-missing ones, so `null`
and empty-string cells contribute `0` here. -/
def coercedValues (cells : List CellVal) : List ℚ :=
  cells.filterMap jsToNumber

/-- A JS arithmetic result that may be `NaN`. -/
inductive JNum where
  | nan : JNum
  | val : ℚ → JNum
deriving DecidableEq, Repr

/-- The expression `x || 0`: `NaN` and `0` are falsy, so both give `0`. -/
def orZero : JNum → ℚ
  | JNum.nan => 0
  | JNum.val q => if q = 0 then 0 else q

/-- One term of the std accumulator:
`Math.pow(val - statistics[col]?.mean || 0, 2)`.
When this expression is evaluated the object literal that will become
`statistics[col]` has not been assigned yet, so `statistics[col]` is
`undefined`, `statistics[col]?.mean` is `undefined`, and
`val - undefined` is `NaN`; `NaN || 0` is `0`. -/
def stdTerm (_v : ℚ) : ℚ :=
  (orZero JNum.nan) ^ 2

/-- Per-column summary statistics.  `stdArg` is the radicand handed to
`Math.sqrt`, i.e. the reported standard deviation is `√ stdArg`; it is kept
as a rational because the code's radicand is provably always `0`. -/
structure ColumnStats where
  mean : ℚ
  median : ℚ
  min : ℚ
  max : ℚ
  stdArg : ℚ
deriving DecidableEq, Repr

/-- Statistics of one column, computed only when at least one coerced value
survives the `NaN` filter (`if (values.length > 0)`). -/
def colStatistics (cells : List CellVal) : Option ColumnStats :=
  let values := coercedValues cells
  if values.length > 0 then
    let sorted := sortAsc values
    some
      { mean := values.sum / (values.length : ℚ)
        median := sorted.getD (sorted.length / 2) 0
        min := values.foldr min (values.headD 0)
        max := values.foldr max (values.headD 0)
        stdArg := (values.map stdTerm).sum / (values.length : ℚ) }
  else none

/-- The analysis record returned by `analyzeData`. -/
structure Analysis where
  shapeRows : ℕ
  shapeColumns : ℕ
  columns : List String
  dtypes : List (String × String)
  missingValues : List (String × ℕ)
  numericalColumns : List String
  categoricalColumns : List String
  statistics : List (String × ColumnStats)
deriving Repr

/-- The profiler.  Columns come from the first row's keys; each column is
classified and, when numeric, summarised. -/
def analyzeData (data : List Row) : Except AnalysisError Analysis :=
  if data.length = 0 then Except.error AnalysisError.emptyDataset
  else
    let columns : List String := (data.headD []).map (fun p => p.1)
    let numericalColumns := columns.filter (fun c => isNumericalCol (columnCells data c))
    let categoricalColumns := columns.filter (fun c => ¬ isNumericalCol (columnCells data c))
    Except.ok
      { shapeRows := data.length
        shapeColumns := columns.length
        columns := columns
        dtypes := columns.map (fun c =>
          (c, if isNumericalCol (columnCells data c) then "number" else "string"))
        missingValues := columns.map (fun c =>
          (c, data.length - (nonNullCells (columnCells data c)).length))
        numericalColumns := numericalColumns
        categoricalColumns := categoricalColumns
        statistics := numericalColumns.filterMap (fun c =>
          (colStatistics (columnCells data c)).map (fun s => (c, s))) }

/-- The median the profiler reports for a column, if any. -/
def reportedMedian (data : List Row) (col : String) : Option ℚ :=
  match analyzeData data with
  | Except.ok a => (a.statistics.lookup col).map (fun s => s.median)
  | Except.error _ => none

/-- The std radicand the profiler reports for a column, if any (the
reported standard deviation is its square root). -/
def reportedStdArg (data : List Row) (col : String) : Option ℚ :=
  match analyzeData data with
  | Except.ok a => (a.statistics.lookup col).map (fun s => s.stdArg)
  | Except.error _ => none

/-- Modelled from the spec claim: the population variance of a list of
values, the square of the population standard deviation the spec says the
profiler reports (sum of squared deviations from the mean divided by the
count, not count minus one). -/
def specPopVariance (l : List ℚ) : ℚ :=
  let m := l.sum / (l.length : ℚ)
  (l.map (fun v => (v - m) ^ 2)).sum / (l.length : ℚ)

/-! ## Problem-type detector (`detectProblemType`) -/

inductive ProblemType where
  | classification : ProblemType
  | regression : ProblemType
deriving DecidableEq, Repr

/-- Target values kept by the detector: only `null`/`undefined` are removed
(the empty string is kept, unlike the profiler's missing test). -/
def detectorTargets (data : List Row) (target : String) : List CellVal :=
  (data.map (fun r => rowGet r target)).filter
    (fun v => v ≠ CellVal.null ∧ v ≠ CellVal.undef)

/-- The detector.  `0.1` is exact here; for the integer counts involved the
IEEE-double comparison `size < data.length * 0.1` agrees with the rational
one. -/
def detectProblemType (data : List Row) (target : String) : ProblemType :=
  let targetValues := detectorTargets data target
  let uniqueSize := (dedupKeepFirst targetValues).length
  if uniqueSize ≤ 20 ∨ (uniqueSize : ℚ) < (data.length : ℚ) * (0.1 : ℚ) then
    ProblemType.classification
  else if ((targetValues.filter (fun v => isNumericVal v)).length : ℚ) >
      (targetValues.length : ℚ) * (0.8 : ℚ) then
    ProblemType.regression
  else ProblemType.classification

/-! ## Feature encoder (`prepareFeatures`) -/

/-- Encoding of one non-missing feature value: a number is kept, a string
that coerces is coerced, anything else falls back to
`value.toString().charCodeAt(0) % 100`. -/
def encodeFeature (v : CellVal) : ℚ :=
  match v with
  | CellVal.num q => q
  | CellVal.str s =>
      match parseNum s with
      | some q => q
      | none => ((charCode0 s % 100 : ℕ) : ℚ)
  | _ => 0

/-- Encoding of a retained target value:
`typeof v === 'number' ? v : !isNaN(Number(v)) ? Number(v) : charCode`.
Only numbers and strings reach this point (the guard has already removed
`null` and `undefined`); note that the empty string coerces to `0`. -/
def encodeTarget (v : CellVal) : ℚ :=
  match v with
  | CellVal.num q => q
  | CellVal.str s =>
      match parseNum s with
      | some q => q
      | none => ((charCode0 s % 100 : ℕ) : ℚ)
  | _ => 0

/-- Row-retention guard: every feature value non-missing
(`null`/`undefined`/`''` all excluded) and the target value neither `null`
nor `undefined` (the empty string is NOT excluded for the target). -/
def keepRow (featureCols : List String) (target : String) (r : Row) : Bool :=
  featureCols.all (fun c => ¬ isMissing (rowGet r c)) &&
    rowGet r target ≠ CellVal.null && rowGet r target ≠ CellVal.undef

/-- The encoder, translated from the row loop: rows failing the guard are
dropped from both outputs, retained rows contribute an encoded feature
vector and an encoded target, in dataset order. -/
def prepareFeatures (data : List Row) (featureCols : List String)
    (target : String) : List (List ℚ) × List ℚ :=
  data.foldl
    (fun acc r =>
      if keepRow featureCols target r then
        (acc.1 ++ [featureCols.map (fun c => encodeFeature (rowGet r c))],
         acc.2 ++ [encodeTarget (rowGet r target)])
      else acc)
    ([], [])

/-! ## Confusion matrix (`calculateConfusionMatrix`) -/

/-- Decimal key under which JS's default `Array.prototype.sort` compares a
number after string conversion.  Exact for integers (`String(7) = "7"`,
`String(-3) = "-3"`); for non-integral rationals the `num/den` form used
here is only a stand-in — JS would print the shortest round-trip decimal of
the double, which has no exact rational counterpart — and every theorem
below evaluates the matrix on integer labels only. -/
def jsNumKey (q : ℚ) : List Char :=
  if q.den = 1 then (toString q.num).data
  else (toString q.num).data ++ '/' :: (toString (q.den : ℤ)).data

/-- UTF-16 code-unit lexicographic order on strings, as the default sort
comparator uses. -/
def lexLeB : List Char → List Char → Bool
  | [], _ => true
  | _ :: _, [] => false
  | a :: as, b :: bs =>
      if a.toNat < b.toNat then true
      else if b.toNat < a.toNat then false
      else lexLeB as bs

/-- Insertion of one element under a boolean comparator. -/
def insertBy {α : Type} (le : α → α → Bool) (a : α) : List α → List α
  | [] => [a]
  | b :: bs => if le a b then a :: b :: bs else b :: insertBy le a bs

/-- Insertion sort under a boolean comparator (a stable sort, as modern
`Array.prototype.sort` is specified to be). -/
def sortBy {α : Type} (le : α → α → Bool) : List α → List α
  | [] => []
  | a :: as => insertBy le a (sortBy le as)

/-- `[...new Set([...actual, ...predicted])].sort()`: the distinct labels,
sorted lexicographically by their string forms. -/
def classesOf (actual predicted : List ℚ) : List ℚ :=
  sortBy (fun a b => lexLeB (jsNumKey a) (jsNumKey b))
    (dedupKeepFirst (actual ++ predicted))

/-- `matrix[i][j]++` on a list-of-lists matrix. -/
def bumpMatrix (m : List (List ℕ)) (i j : ℕ) : List (List ℕ) :=
  m.set i ((m.getD i []).set j ((m.getD i []).getD j 0 + 1))

/-- One loop step: look both labels up in the class list and increment the
corresponding entry; the `indexOf >= 0` guard skips a label not present
(which never happens for pairs drawn from the inputs). -/
def cmStep (classes : List ℚ) (m : List (List ℕ)) (p : ℚ × ℚ) :
    List (List ℕ) :=
  match classes.indexOf? p.1, classes.indexOf? p.2 with
  | some i, some j => bumpMatrix m i j
  | _, _ => m

/-- The confusion matrix: an all-zero `n × n` matrix updated once per
aligned (actual, predicted) pair.  Iterating `actual.forEach` with
`predicted[idx]` visits exactly the zipped pairs: past `predicted`'s end
the lookup yields `undefined`, whose `indexOf` is `-1`, so the guard skips
such positions. -/
def calculateConfusionMatrix (actual predicted : List ℚ) : List (List ℕ) :=
  let classes := classesOf actual predicted
  (actual.zip predicted).foldl (cmStep classes)
    (List.replicate classes.length (List.replicate classes.length 0))

/-- Number of aligned positions carrying actual label `a` and predicted
label `p` — the quantity the claim says each matrix entry holds. -/
def countPairs (actual predicted : List ℚ) (a p : ℚ) : ℕ :=
  ((actual.zip predicted).filter (fun x => x.1 = a ∧ x.2 = p)).length

/-! ## Metrics engine (`calculateMetrics`) -/

/-- A reported metric value.  `val` is an exact rational; `sqrtVal q`
denotes the (4-decimal-rounded) real square root of `q`, kept symbolic
because a square root has no rational value in general and no claim
depends on it. -/
inductive MetricVal where
  | val : ℚ → MetricVal
  | sqrtVal : ℚ → MetricVal
deriving DecidableEq, Repr

/-- `Number(x.toFixed(4))`, modelled as rounding to the nearest multiple of
`1/10000` (ties away from the value are a float detail no claim touches). -/
def round4 (q : ℚ) : ℚ :=
  (round (q * 10000) : ℤ) / 10000

/-- Regression metrics.  Division by zero denotes the source's
`Infinity`/`NaN` outcomes (the rational convention gives `0`); the R²
formula is the source's own non-standard test-set formula. -/
def regressionMetrics (actual predicted : List ℚ) : List (String × MetricVal) :=
  let n : ℚ := actual.length
  let mse := ((actual.zip predicted).map (fun p => (p.1 - p.2) ^ 2)).sum / n
  let mae := ((actual.zip predicted).map (fun p => |p.1 - p.2|)).sum / n
  let actualMean := actual.sum / n
  let totalSumSquares := (actual.map (fun v => (v - actualMean) ^ 2)).sum
  let r2 := 1 - (mse * n) / totalSumSquares
  [("Mean Squared Error", MetricVal.val (round4 mse)),
   ("Mean Absolute Error", MetricVal.val (round4 mae)),
   ("Root Mean Squared Error", MetricVal.sqrtVal mse),
   ("R2 Score", MetricVal.val (round4 r2))]

/-- Classification metrics.  Precision/recall/F1 are non-zero only when
exactly two distinct labels appear over actual and predicted together; the
positive class is the larger label.  The `|| 0` fallbacks on the divisions
coincide with the rational zero-division convention because a zero
denominator forces a zero numerator here. -/
def classificationMetrics (actual predicted : List ℚ) :
    List (String × MetricVal) :=
  let correct := ((actual.zip predicted).filter (fun p => p.1 = p.2)).length
  let accuracy := (correct : ℚ) / (actual.length : ℚ)
  let uniqueClasses := dedupKeepFirst (actual ++ predicted)
  let prf : ℚ × ℚ × ℚ :=
    if uniqueClasses.length = 2 then
      let positiveClass := uniqueClasses.foldr max (uniqueClasses.headD 0)
      let tp := ((actual.zip predicted).filter
        (fun p => p.1 = positiveClass ∧ p.2 = positiveClass)).length
      let fp := ((predicted.zip actual).filter
        (fun p => p.1 = positiveClass ∧ p.2 ≠ positiveClass)).length
      let fneg := ((actual.zip predicted).filter
        (fun p => p.1 = positiveClass ∧ p.2 ≠ positiveClass)).length
      let precision := (tp : ℚ) / ((tp : ℚ) + (fp : ℚ))
      let rec0 := (tp : ℚ) / ((tp : ℚ) + (fneg : ℚ))
      let f1 := 2 * (precision * rec0) / (precision + rec0)
      (precision, rec0, f1)
    else (0, 0, 0)
  [("Accuracy", MetricVal.val (round4 accuracy)),
   ("Precision", MetricVal.val (round4 prf.1)),
   ("Recall", MetricVal.val (round4 prf.2.1)),
   ("F1 Score", MetricVal.val (round4 prf.2.2))]

/-- Dispatch on the problem type, as `calculateMetrics` does. -/
def calculateMetrics (actual predicted : List ℚ) (pt : ProblemType) :
    List (String × MetricVal) :=
  match pt with
  | ProblemType.regression => regressionMetrics actual predicted
  | ProblemType.classification => classificationMetrics actual predicted

/-! ## Logistic regression (core-implemented)

The float sigmoid `1 / (1 + exp(-clamp(z)))` is transcendental, so it is
taken as a parameter `sig : ℚ → ℚ` of the pipeline; everything around it
(zero initialisation, 1000 full-batch iterations, learning rate `0.01`,
gradient accumulation, final `Math.round`) is embedded exactly. -/

/-- `this.predict(x)`: the linear score `bias + Σ x_i * w_i`. -/
def linScore (w : List ℚ) (b : ℚ) (x : List ℚ) : ℚ :=
  b + ((x.zip w).map (fun p => p.1 * p.2)).sum

/-- One gradient-descent iteration over the whole training set. -/
def lrStep (sig : ℚ → ℚ) (X : List (List ℚ)) (y : List ℚ)
    (wb : List ℚ × ℚ) : List ℚ × ℚ :=
  let w := wb.1
  let b := wb.2
  let errs := ((X.map (fun row => sig (linScore w b row))).zip y).map
    (fun p => p.1 - p.2)
  let n : ℚ := X.length
  let dw := (List.range w.length).map (fun j =>
    ((errs.zip X).map (fun e => e.1 * (e.2.getD j 0))).sum)
  let db := errs.sum
  ((w.zip dw).map (fun p => p.1 - (0.01 : ℚ) * p.2 / n), b - (0.01 : ℚ) * db / n)

/-- `fit`: zero-initialised weights and bias, 1000 iterations. -/
def logisticFit (sig : ℚ → ℚ) (X : List (List ℚ)) (y : List ℚ) :
    List ℚ × ℚ :=
  (List.range 1000).foldl (fun wb _ => lrStep sig X y wb)
    (List.replicate (X.headD []).length 0, 0)

/-- `Math.round`: nearest integer, ties toward positive infinity. -/
def jsRound (q : ℚ) : ℚ := (⌊q + 1 / 2⌋ : ℤ)

/-- Test-set predictions: `Math.round(sigmoid(score))` per row. -/
def logisticPredictions (sig : ℚ → ℚ) (XTrain : List (List ℚ))
    (yTrain : List ℚ) (XTest : List (List ℚ)) : List ℚ :=
  let wb := logisticFit sig XTrain yTrain
  XTest.map (fun row => jsRound (sig (linScore wb.1 wb.2 row)))

/-! ## Decision tree (core-implemented) -/

/-- A tree node: a numeric leaf label or a split on a feature with a
threshold, `≤` routing left. -/
inductive DTree where
  | leaf : ℚ → DTree
  | node : ℕ → ℚ → DTree → DTree → DTree
deriving DecidableEq, Repr

/-- Occurrences of a label in a label list (`counts[val]` after the
counting loop). -/
def countIn (y : List ℚ) (k : ℚ) : ℕ := (y.filter (fun v => v = k)).length

/-- Whether a number's string form is a JS array-index key (a canonical
non-negative integer below `2^32 - 1`); such object keys enumerate in
ascending numeric order, all others in insertion order after them. -/
def isArrayIndex (q : ℚ) : Bool :=
  q.den = 1 && 0 ≤ q.num && q.num < 4294967295

/-- `Object.keys(counts)` for the label-count record: array-index keys
ascending first, remaining keys in first-insertion order. -/
def objKeys (y : List ℚ) : List ℚ :=
  let d := dedupKeepFirst y
  (d.filter (fun v => isArrayIndex v)).insertionSort (· ≤ ·) ++
    d.filter (fun v => ¬ isArrayIndex v)

/-- `getMostCommonValue`: reduce over the keys keeping the current champion
only when its count is strictly greater, so a tie moves to the later key.
`none` on an empty label list (where the source's `reduce` would throw). -/
def getMostCommonValue (y : List ℚ) : Option ℚ :=
  match objKeys y with
  | [] => none
  | k :: ks =>
      some (ks.foldl (fun a b => if countIn y a > countIn y b then a else b) k)

/-- Gini impurity of a label list: `1 − Σ (count/total)²`. -/
def giniOf (y : List ℚ) : ℚ :=
  1 - ((dedupKeepFirst y).map (fun k => ((countIn y k : ℚ) / (y.length : ℚ)) ^ 2)).sum

/-- Sample-weighted Gini of a partition. -/
def weightedGini (leftY rightY : List ℚ) : ℚ :=
  let total : ℚ := leftY.length + rightY.length
  (leftY.length : ℚ) / total * giniOf leftY +
    (rightY.length : ℚ) / total * giniOf rightY

/-- A candidate split: feature index, threshold, and the two index sets. -/
structure Split where
  feature : ℕ
  threshold : ℚ
  leftIndices : List ℕ
  rightIndices : List ℕ
deriving Repr

/-- All candidate splits in feature-then-threshold order: for each feature
the midpoints of adjacent distinct sorted values, partitioning row indices
by `≤ threshold`, skipping one-sided partitions. -/
def candidateSplits (X : List (List ℚ)) : List Split :=
  (List.range (X.headD []).length).flatMap (fun feature =>
    let values := X.map (fun row => row.getD feature 0)
    let uniqueValues := sortAsc (dedupKeepFirst values)
    (List.range (uniqueValues.length - 1)).filterMap (fun i =>
      let threshold := (uniqueValues.getD i 0 + uniqueValues.getD (i + 1) 0) / 2
      let leftIndices := (List.range X.length).filter
        (fun idx => (X.getD idx []).getD feature 0 ≤ threshold)
      let rightIndices := (List.range X.length).filter
        (fun idx => ¬ ((X.getD idx []).getD feature 0 ≤ threshold))
      if leftIndices.length = 0 ∨ rightIndices.length = 0 then none
      else some ⟨feature, threshold, leftIndices, rightIndices⟩))

/-- `findBestSplit`: keep the strictly lowest weighted Gini, first
encountered winning ties. -/
def findBestSplit (X : List (List ℚ)) (y : List ℚ) : Option Split :=
  (candidateSplits X).foldl
    (fun best s =>
      let gini := weightedGini (s.leftIndices.map (fun i => y.getD i 0))
        (s.rightIndices.map (fun i => y.getD i 0))
      match best with
      | none => some (s, gini)
      | some bg => if gini < bg.2 then some (s, gini) else best)
    none |>.map (fun bg => bg.1)

/-- `buildTree`, with `fuel = maxDepth − depth` (initially 10): a leaf when
the depth bound is hit, fewer than 2 samples remain, or one distinct label
remains; otherwise recurse on the best split's two sides.  The leaf label
defaults to 0 on an empty subset, where the source's empty `reduce` would
throw — a situation the recursion never creates. -/
def buildTree (fuel : ℕ) (X : List (List ℚ)) (y : List ℚ) : DTree :=
  match fuel with
  | 0 => DTree.leaf ((getMostCommonValue y).getD 0)
  | fuel' + 1 =>
      if X.length < 2 ∨ (dedupKeepFirst y).length = 1 then
        DTree.leaf ((getMostCommonValue y).getD 0)
      else
        match findBestSplit X y with
        | none => DTree.leaf ((getMostCommonValue y).getD 0)
        | some s =>
            DTree.node s.feature s.threshold
              (buildTree fuel' (s.leftIndices.map (fun i => X.getD i []))
                (s.leftIndices.map (fun i => y.getD i 0)))
              (buildTree fuel' (s.rightIndices.map (fun i => X.getD i []))
                (s.rightIndices.map (fun i => y.getD i 0)))

/-- `predictSingle`: walk to a leaf, `≤ threshold` routing left. -/
def predictSingle (x : List ℚ) : DTree → ℚ
  | DTree.leaf v => v
  | DTree.node feature threshold l r =>
      if x.getD feature 0 ≤ threshold then predictSingle x l
      else predictSingle x r

/-- Fit a depth-10 tree on the training set and predict the test rows. -/
def treePredictions (XTrain : List (List ℚ)) (yTrain : List ℚ)
    (XTest : List (List ℚ)) : List ℚ :=
  let t := buildTree 10 XTrain yTrain
  XTest.map (fun row => predictSingle row t)

/-! ## Training pipeline (`trainModel`) -/

/-- `Math.floor(X.length * 0.8)`.  For integer `n` the IEEE product
`n * 0.8` rounds to exactly `4n/5` when `5 ∣ n` and otherwise lands within
`2^-50` of `4n/5`, far from any integer, so the floor agrees with the exact
rational floor. -/
def splitIndex (n : ℕ) : ℕ := ⌊(n : ℚ) * (0.8 : ℚ)⌋₊

/-- The deterministic order-preserving split: first `splitIndex` rows train,
the rest evaluate.  Returns `(XTrain, yTrain, XTest, yTest)`. -/
def trainSplit (X : List (List ℚ)) (y : List ℚ) :
    List (List ℚ) × List ℚ × List (List ℚ) × List ℚ :=
  let k := splitIndex X.length
  (X.take k, y.take k, X.drop k, y.drop k)

/-- The external library models (`ml-regression`, `ml-random-forest`) the
pipeline delegates to; the spec treats them as pluggable collaborators
behind a fit/predict contract, so they are parameters here.  Each takes the
training data and the test rows and produces test predictions or a failure
message.  The random-forest entries also receive the source's
hyperparameters `nEstimators = 10` and `maxFeatures = floor(sqrt(featureCount))`. -/
structure ExternalModels where
  simpleLinear : List ℚ → List ℚ → List ℚ → Except String (List ℚ)
  multiLinear : List (List ℚ) → List ℚ → List (List ℚ) → Except String (List ℚ)
  rfRegressor : ℕ → ℕ → List (List ℚ) → List ℚ → List (List ℚ) → Except String (List ℚ)
  rfClassifier : ℕ → ℕ → List (List ℚ) → List ℚ → List (List ℚ) → Except String (List ℚ)

/-- A fit/predict failure rethrown as
`Failed to train ${modelName}: ${error}`.  The source assigns `modelName`
only after a successful fit+predict, so on failure the carried name is
still the empty string. -/
structure TrainingError where
  modelName : String
  message : String
deriving DecidableEq, Repr

/-- The results record (the wall-clock `trainingTime` field is real time at
the process boundary and is not modelled). -/
structure ModelResults where
  model : String
  problemType : ProblemType
  metrics : List (String × MetricVal)
  predictions : List ℚ
  actualValues : List ℚ
  confusionMatrix : Option (List (List ℕ))
deriving DecidableEq, Repr

/-- Model dispatch: given the problem type and model-type token, produce
the model name and test predictions, or a failure.  A token matching no
branch leaves the initial `modelName = ''` and `predictions = []`
untouched. -/
def dispatchModel (ext : ExternalModels) (sig : ℚ → ℚ)
    (XTrain : List (List ℚ)) (yTrain : List ℚ) (XTest : List (List ℚ))
    (pt : ProblemType) (modelType : String) : Except String (String × List ℚ) :=
  match pt with
  | ProblemType.regression =>
      if modelType = "linear" ∨ modelType = "auto" then
        if (XTrain.headD []).length = 1 then
          (ext.simpleLinear (XTrain.map (fun r => r.getD 0 0)) yTrain
            (XTest.map (fun r => r.getD 0 0))).map
            (fun preds => ("Linear Regression", preds))
        else
          (ext.multiLinear XTrain yTrain XTest).map
            (fun preds => ("Multivariate Linear Regression", preds))
      else if modelType = "randomforest" then
        (ext.rfRegressor 10 (Nat.sqrt (XTrain.headD []).length) XTrain yTrain
          XTest).map (fun preds => ("Random Forest Regression", preds))
      else Except.ok ("", [])
  | ProblemType.classification =>
      if modelType = "logistic" ∨ modelType = "auto" then
        Except.ok ("Logistic Regression",
          logisticPredictions sig XTrain yTrain XTest)
      else if modelType = "decisiontree" then
        Except.ok ("Decision Tree", treePredictions XTrain yTrain XTest)
      else if modelType = "randomforest" then
        (ext.rfClassifier 10 (Nat.sqrt (XTrain.headD []).length) XTrain yTrain
          XTest).map (fun preds => ("Random Forest Classifier", preds))
      else Except.ok ("", [])

/-- The pipeline: split, dispatch, compute metrics on the held-out rows,
and attach a confusion matrix for classification.  Pure, hence trivially
deterministic: the same input always yields the same record. -/
def trainModel (ext : ExternalModels) (sig : ℚ → ℚ) (X : List (List ℚ))
    (y : List ℚ) (pt : ProblemType) (modelType : String) :
    Except TrainingError ModelResults :=
  let split := trainSplit X y
  let XTrain := split.1
  let yTrain := split.2.1
  let XTest := split.2.2.1
  let yTest := split.2.2.2
  match dispatchModel ext sig XTrain yTrain XTest pt modelType with
  | Except.error e => Except.error ⟨"", e⟩
  | Except.ok np =>
      Except.ok
        { model := np.1
          problemType := pt
          metrics := calculateMetrics yTest np.2 pt
          predictions := np.2
          actualValues := yTest
          confusionMatrix :=
            match pt with
            | ProblemType.classification =>
                some (calculateConfusionMatrix yTest np.2)
            | ProblemType.regression => none }

/-! ## Concrete datasets and helpers used by the theorems -/

instance : Inhabited ColumnStats := ⟨⟨0, 0, 0, 0, 0⟩⟩

instance : Inhabited Analysis := ⟨⟨0, 0, [], [], [], [], [], []⟩⟩

/-- The analysis record of a non-empty dataset (default on the empty one). -/
def analysisOf (data : List Row) : Analysis :=
  match analyzeData data with
  | Except.ok a => a
  | Except.error _ => default

/-- The statistics entry a profiled dataset holds for a column. -/
def statsD (data : List Row) (col : String) : ColumnStats :=
  ((analysisOf data).statistics.lookup col).getD default

/-- A one-column dataset whose column `a` holds 1, 2, 3, 4 — four numeric
values, an even count, no missing cells. -/
def d4 : List Row :=
  [[("a", CellVal.num 1)], [("a", CellVal.num 2)],
   [("a", CellVal.num 3)], [("a", CellVal.num 4)]]

/-- A one-column dataset whose column `a` holds 1 and 3: population mean 2,
population standard deviation 1. -/
def d13 : List Row :=
  [[("a", CellVal.num 1)], [("a", CellVal.num 3)]]

/-- A 1000-row dataset whose target column `t` cycles through the 21
numeric values 0..20. -/
def big1000 : List Row :=
  (List.range 1000).map (fun i => [("t", CellVal.num ((i % 21 : ℕ) : ℚ))])

/-- A 5-row dataset whose target column `t` carries 5 distinct numeric
values. -/
def small5 : List Row :=
  (List.range 5).map (fun i => [("t", CellVal.num (i : ℚ))])

/-- The first 21 target cells of `big1000` (every later cell repeats one
of these values). -/
def first21 : List CellVal :=
  (List.range 21).map (fun i => CellVal.num ((i % 21 : ℕ) : ℚ))

/-- A single row with a present feature and an empty-string target. -/
def dEmptyTarget : List Row :=
  [[("f", CellVal.num 1), ("t", CellVal.str "")]]

/-- Five non-missing values of which exactly four (80%) are numeric. -/
def d80 : List Row :=
  [[("a", CellVal.num 1)], [("a", CellVal.num 2)], [("a", CellVal.num 3)],
   [("a", CellVal.num 4)], [("a", CellVal.str "x")]]

/-- One hundred non-missing values of which exactly 81 are numeric. -/
def d81 : List Row :=
  (List.range 81).map (fun i => [("a", CellVal.num (i : ℚ))]) ++
    (List.range 19).map (fun _ => [("a", CellVal.str "x")])

/-- Inert external models, enough to instantiate the pipeline. -/
def trivialModels : ExternalModels :=
  { simpleLinear := fun _ _ _ => Except.ok []
    multiLinear := fun _ _ _ => Except.ok []
    rfRegressor := fun _ _ _ _ _ => Except.ok []
    rfClassifier := fun _ _ _ _ _ => Except.ok [] }

/-! ## Supporting lemmas -/

lemma foldl_dedup_mem {α : Type} [DecidableEq α] (l : List α) :
    ∀ (acc : List α) (x : α),
      x ∈ l.foldl (fun acc v => if v ∈ acc then acc else acc ++ [v]) acc ↔
        x ∈ acc ∨ x ∈ l := by
  induction l with
  | nil => simp
  | cons a as ih =>
      intro acc x
      simp only [List.foldl_cons]
      by_cases hmem : a ∈ acc
      · rw [if_pos hmem, ih]
        constructor
        · rintro (h | h)
          · exact Or.inl h
          · exact Or.inr (List.mem_cons_of_mem _ h)
        · rintro (h | h)
          · exact Or.inl h
          · rcases List.mem_cons.mp h with rfl | h
            · exact Or.inl hmem
            · exact Or.inr h
      · rw [if_neg hmem, ih]
        simp only [List.mem_append, List.mem_singleton, List.mem_cons]
        tauto

lemma mem_dedupKeepFirst {α : Type} [DecidableEq α] {l : List α} {x : α} :
    x ∈ dedupKeepFirst l ↔ x ∈ l := by
  unfold dedupKeepFirst
  rw [foldl_dedup_mem]
  simp

lemma foldl_dedup_nodup {α : Type} [DecidableEq α] (l : List α) :
    ∀ (acc : List α), acc.Nodup →
      (l.foldl (fun acc v => if v ∈ acc then acc else acc ++ [v]) acc).Nodup := by
  induction l with
  | nil => intro acc h; simpa using h
  | cons a as ih =>
      intro acc h
      simp only [List.foldl_cons]
      by_cases hmem : a ∈ acc
      · rw [if_pos hmem]; exact ih acc h
      · rw [if_neg hmem]
        refine ih _ ?_
        simpa [List.nodup_append] using ⟨h, hmem⟩

lemma nodup_dedupKeepFirst {α : Type} [DecidableEq α] (l : List α) :
    (dedupKeepFirst l).Nodup :=
  foldl_dedup_nodup l [] List.nodup_nil

lemma dedupKeepFirst_ne_nil {α : Type} [DecidableEq α] {l : List α}
    (h : l ≠ []) : dedupKeepFirst l ≠ [] := by
  rcases l with _ | ⟨a, as⟩
  · exact absurd rfl h
  · intro hcon
    have : a ∈ dedupKeepFirst (a :: as) := mem_dedupKeepFirst.mpr (by simp)
    rw [hcon] at this
    exact absurd this (List.not_mem_nil a)

lemma insertBy_perm {α : Type} (le : α → α → Bool) (a : α) :
    ∀ l : List α, (insertBy le a l).Perm (a :: l) := by
  intro l
  induction l with
  | nil => simp [insertBy]
  | cons b bs ih =>
      unfold insertBy
      by_cases h : le a b
      · rw [if_pos h]
      · rw [if_neg h]
        exact (ih.cons b).trans (List.Perm.swap a b bs)

lemma sortBy_perm {α : Type} (le : α → α → Bool) :
    ∀ l : List α, (sortBy le l).Perm l := by
  intro l
  induction l with
  | nil => simp [sortBy]
  | cons a as ih =>
      unfold sortBy
      exact (insertBy_perm le a (sortBy le as)).trans (ih.cons a)

lemma indexOf?_eq_some_of_mem {α : Type} [DecidableEq α] {l : List α} {a : α}
    (h : a ∈ l) : l.indexOf? a = some (l.indexOf a) := by
  cases hio : l.indexOf? a with
  | none =>
      rw [List.indexOf?_eq_none_iff] at hio
      exact absurd (by simp : (a == a) = true) (hio a h)
  | some i =>
      have hix := List.indexOf_eq_indexOf? a l
      rw [hio] at hix
      rw [hix]

lemma lookup_statistics (data : List Row) (col : String) (s : ColumnStats) :
    ∀ cols : List String,
      (cols.filterMap (fun c =>
        (colStatistics (columnCells data c)).map (fun st => (c, st)))).lookup col =
          some s →
      colStatistics (columnCells data col) = some s := by
  intro cols
  induction cols with
  | nil => intro h; simp at h
  | cons c cs ih =>
      intro h
      rw [List.filterMap_cons] at h
      cases hc : colStatistics (columnCells data c) with
      | none => rw [hc] at h; simpa using ih (by simpa using h)
      | some st =>
          rw [hc] at h
          cases hbeq : (col == c) with
          | true =>
              have hceq : col = c := by simpa using hbeq
              subst hceq
              rw [hc]
              have hss : some st = some s := by
                simpa [List.lookup, hbeq] using h
              simpa using hss
          | false =>
              exact ih (by simpa [List.lookup, hbeq] using h)

lemma prepareFeatures_foldl (featureCols : List String) (target : String) :
    ∀ (data : List Row) (acc : List (List ℚ) × List ℚ),
      data.foldl
        (fun acc r =>
          if keepRow featureCols target r then
            (acc.1 ++ [featureCols.map (fun c => encodeFeature (rowGet r c))],
             acc.2 ++ [encodeTarget (rowGet r target)])
          else acc) acc =
      (acc.1 ++ (data.filter (keepRow featureCols target)).map
          (fun r => featureCols.map (fun c => encodeFeature (rowGet r c))),
       acc.2 ++ (data.filter (keepRow featureCols target)).map
          (fun r => encodeTarget (rowGet r target))) := by
  intro data
  induction data with
  | nil => intro acc; simp
  | cons r rs ih =>
      intro acc
      rw [List.foldl_cons, List.filter_cons]
      by_cases h : keepRow featureCols target r
      · rw [if_pos h, ih, if_pos h]
        simp
      · rw [if_neg h, ih, if_neg (by simpa using h)]

lemma champion_spec (y : List ℚ) :
    ∀ (ks : List ℚ) (a : ℚ), List.Sorted (· ≤ ·) (a :: ks) →
      (ks.foldl (fun a b => if countIn y a > countIn y b then a else b) a) ∈
          a :: ks ∧
        (∀ b ∈ a :: ks, countIn y b ≤
          countIn y (ks.foldl (fun a b => if countIn y a > countIn y b then a else b) a)) ∧
        (∀ b ∈ a :: ks, countIn y b =
          countIn y (ks.foldl (fun a b => if countIn y a > countIn y b then a else b) a) →
            b ≤ ks.foldl (fun a b => if countIn y a > countIn y b then a else b) a) := by
  intro ks
  induction ks with
  | nil =>
      intro a _
      refine ⟨by simp, ?_, ?_⟩
      · intro b hb; rw [List.mem_singleton] at hb; rw [hb]; simp [List.foldl_nil]
      · intro b hb _; rw [List.mem_singleton] at hb; rw [hb]; simp [List.foldl_nil]
  | cons k ks ih =>
      intro a hsorted
      have hak : a ≤ k := (List.sorted_cons.mp hsorted).1 k (by simp)
      have hsorted2 : List.Sorted (· ≤ ·) (k :: ks) :=
        (List.sorted_cons.mp hsorted).2
      have hsorted3 :
          List.Sorted (· ≤ ·) ((if countIn y a > countIn y k then a else k) :: ks) := by
        rw [List.sorted_cons]
        refine ⟨?_, (List.sorted_cons.mp hsorted2).2⟩
        intro b hb
        have hkb : k ≤ b := (List.sorted_cons.mp hsorted2).1 b hb
        split
        · exact le_trans hak hkb
        · exact hkb
      obtain ⟨hmem, hmax, htie⟩ := ih (if countIn y a > countIn y k then a else k) hsorted3
      have hcase : (if countIn y a > countIn y k then a else k) = a ∨
          (if countIn y a > countIn y k then a else k) = k := by
        split
        · exact Or.inl rfl
        · exact Or.inr rfl
      have hca : countIn y a ≤ countIn y (if countIn y a > countIn y k then a else k) := by
        split
        · exact le_refl _
        · omega
      have hck : countIn y k ≤ countIn y (if countIn y a > countIn y k then a else k) := by
        split
        · omega
        · exact le_refl _
      have hmax0 := hmax (if countIn y a > countIn y k then a else k) (by simp)
      have haa0 : a ≤ (if countIn y a > countIn y k then a else k) := by
        rcases hcase with hc0 | hc0 <;> rw [hc0]
        exact hak
      simp only [List.foldl_cons]
      refine ⟨?_, ?_, ?_⟩
      · rcases List.mem_cons.mp hmem with h0 | h0
        · rw [h0]
          rcases hcase with hc0 | hc0 <;> rw [hc0] <;> simp
        · exact List.mem_cons_of_mem _ (List.mem_cons_of_mem _ h0)
      · intro b hb
        rcases List.mem_cons.mp hb with hbeq | hb2
        · rw [hbeq]; exact le_trans hca hmax0
        · rcases List.mem_cons.mp hb2 with hbeq | hb3
          · rw [hbeq]; exact le_trans hck hmax0
          · exact hmax b (List.mem_cons_of_mem _ hb3)
      · intro b hb hbc
        rcases List.mem_cons.mp hb with hbeq | hb2
        · have h1 : countIn y (if countIn y a > countIn y k then a else k) =
              countIn y (ks.foldl (fun a b => if countIn y a > countIn y b then a else b)
                (if countIn y a > countIn y k then a else k)) := by
            rw [hbeq] at hbc
            omega
          rw [hbeq]
          exact le_trans haa0 (htie _ (by simp) h1)
        · rcases List.mem_cons.mp hb2 with hbeq | hb3
          · have h1 : countIn y (if countIn y a > countIn y k then a else k) =
                countIn y (ks.foldl (fun a b => if countIn y a > countIn y b then a else b)
                  (if countIn y a > countIn y k then a else k)) := by
              rw [hbeq] at hbc
              omega
            have h2 := htie _ (by simp) h1
            rw [hbeq]
            by_cases hgt : countIn y a > countIn y k
            · have hceq : (if countIn y a > countIn y k then a else k) = a :=
                if_pos hgt
              have hcnt := congrArg (countIn y) hceq
              rw [hbeq] at hbc
              exfalso
              omega
            · have hceq : (if countIn y a > countIn y k then a else k) = k :=
                if_neg hgt
              exact le_trans (le_of_eq hceq.symm) h2
          · exact htie b (List.mem_cons_of_mem _ hb3) hbc

lemma foldl_dedup_absorb {α : Type} [DecidableEq α] :
    ∀ (l : List α) (acc : List α), (∀ v ∈ l, v ∈ acc) →
      l.foldl (fun acc v => if v ∈ acc then acc else acc ++ [v]) acc = acc := by
  intro l
  induction l with
  | nil => intro acc _; rfl
  | cons a as ih =>
      intro acc h
      simp only [List.foldl_cons]
      rw [if_pos (h a (by simp))]
      exact ih acc (fun v hv => h v (List.mem_cons_of_mem _ hv))

lemma dedupKeepFirst_append_absorb {α : Type} [DecidableEq α] (l₁ l₂ : List α)
    (h : ∀ v ∈ l₂, v ∈ dedupKeepFirst l₁) :
    dedupKeepFirst (l₁ ++ l₂) = dedupKeepFirst l₁ := by
  unfold dedupKeepFirst
  rw [List.foldl_append]
  exact foldl_dedup_absorb l₂ _ (by simpa [dedupKeepFirst] using h)

lemma mem_dedup_first21 (i : ℕ) :
    CellVal.num ((i % 21 : ℕ) : ℚ) ∈ dedupKeepFirst first21 := by
  rw [mem_dedupKeepFirst]
  unfold first21
  rw [List.mem_map]
  refine ⟨i % 21, List.mem_range.mpr (Nat.mod_lt i (by norm_num)), ?_⟩
  have hmm : i % 21 % 21 = i % 21 := by omega
  rw [hmm]

lemma big1000_targets :
    detectorTargets big1000 "t" =
      (List.range 1000).map (fun i => CellVal.num ((i % 21 : ℕ) : ℚ)) := by
  unfold detectorTargets big1000
  rw [List.map_map]
  have hmap : (List.range 1000).map
      ((fun r => rowGet r "t") ∘ (fun i => [("t", CellVal.num ((i % 21 : ℕ) : ℚ))])) =
      (List.range 1000).map (fun i => CellVal.num ((i % 21 : ℕ) : ℚ)) := by
    apply List.map_congr_left
    intro i _
    rfl
  rw [hmap]
  apply List.filter_eq_self.mpr
  intro v hv
  rw [List.mem_map] at hv
  obtain ⟨i, _, rfl⟩ := hv
  simp

lemma dedup_targets_big1000 :
    dedupKeepFirst (detectorTargets big1000 "t") = dedupKeepFirst first21 := by
  rw [big1000_targets]
  have hsplit : (List.range 1000).map (fun i => CellVal.num ((i % 21 : ℕ) : ℚ)) =
      first21 ++ (List.range 979).map
        (fun i => CellVal.num (((21 + i) % 21 : ℕ) : ℚ)) := by
    rw [show (1000 : ℕ) = 21 + 979 by norm_num, List.range_add,
      List.map_append, List.map_map]
    rfl
  rw [hsplit]
  apply dedupKeepFirst_append_absorb
  intro v hv
  rw [List.mem_map] at hv
  obtain ⟨i, _, rfl⟩ := hv
  have hmod : (21 + i) % 21 = i % 21 := by omega
  rw [hmod]
  exact mem_dedup_first21 i

lemma map_const_replicate {α β : Type} (l : List α) (c : β) :
    l.map (fun _ => c) = List.replicate l.length c := by
  induction l with
  | nil => rfl
  | cons a as ih => simp [List.replicate_succ, ih]

lemma nodup_classesOf (actual predicted : List ℚ) :
    (classesOf actual predicted).Nodup :=
  ((sortBy_perm _ (dedupKeepFirst (actual ++ predicted))).nodup_iff).mpr
    (nodup_dedupKeepFirst _)

lemma mem_classesOf {actual predicted : List ℚ} {a : ℚ}
    (h : a ∈ actual ++ predicted) : a ∈ classesOf actual predicted := by
  unfold classesOf
  rw [(sortBy_perm _ _).mem_iff, mem_dedupKeepFirst]
  exact h

lemma bump_map_form (classes : List ℚ) (hnd : classes.Nodup) (x y : ℚ)
    (hx : x ∈ classes) (hy : y ∈ classes) (f : ℚ → ℚ → ℕ) :
    cmStep classes (classes.map fun a => classes.map fun b => f a b) (x, y) =
      classes.map fun a => classes.map fun b =>
        if a = x ∧ b = y then f a b + 1 else f a b := by
  have hxlt : classes.indexOf x < classes.length := List.indexOf_lt_length.mpr hx
  have hylt : classes.indexOf y < classes.length := List.indexOf_lt_length.mpr hy
  have hclt : classes[classes.indexOf x] = x := List.getElem_indexOf hxlt
  have hcly : classes[classes.indexOf y] = y := List.getElem_indexOf hylt
  have hstep : cmStep classes (classes.map fun a => classes.map fun b => f a b) (x, y) =
      bumpMatrix (classes.map fun a => classes.map fun b => f a b)
        (classes.indexOf x) (classes.indexOf y) := by
    unfold cmStep
    rw [indexOf?_eq_some_of_mem hx, indexOf?_eq_some_of_mem hy]
  rw [hstep]
  unfold bumpMatrix
  have hrow : (classes.map fun a => classes.map fun b => f a b).getD
      (classes.indexOf x) [] = classes.map fun b => f x b := by
    rw [List.getD_eq_getElem?_getD, List.getElem?_map,
      List.getElem?_eq_getElem hxlt]
    simp [hclt]
  rw [hrow]
  have hcell : (classes.map fun b => f x b).getD (classes.indexOf y) 0 = f x y := by
    rw [List.getD_eq_getElem?_getD, List.getElem?_map,
      List.getElem?_eq_getElem hylt]
    simp [hcly]
  rw [hcell]
  apply List.ext_getElem
  · simp
  intro t ht1 ht2
  have htlen : t < classes.length := by simpa using ht2
  simp only [List.getElem_set, List.getElem_map]
  by_cases hit : classes.indexOf x = t
  · subst hit
    rw [if_pos rfl]
    simp only [hclt]
    apply List.ext_getElem
    · simp
    intro u hu1 hu2
    have hulen : u < classes.length := by simpa using hu2
    simp only [List.getElem_set, List.getElem_map]
    by_cases hju : classes.indexOf y = u
    · subst hju
      rw [if_pos rfl]
      simp [hcly]
    · rw [if_neg hju]
      have hcy : ¬ classes[u] = y := by
        intro hcon
        apply hju
        have h2 : classes[u] = classes[classes.indexOf y] := by
          rw [hcon, hcly]
        exact ((List.Nodup.getElem_inj_iff hnd).mp h2).symm
      simp [hcy]
  · rw [if_neg hit]
    have hcx : ¬ classes[t] = x := by
      intro hcon
      apply hit
      have h2 : classes[t] = classes[classes.indexOf x] := by
        rw [hcon, hclt]
      exact ((List.Nodup.getElem_inj_iff hnd).mp h2).symm
    apply List.map_congr_left
    intro b _
    simp [hcx]

lemma cm_foldl (classes : List ℚ) (hnd : classes.Nodup) :
    ∀ (pairs : List (ℚ × ℚ)) (f : ℚ → ℚ → ℕ),
      (∀ p ∈ pairs, p.1 ∈ classes ∧ p.2 ∈ classes) →
      pairs.foldl (cmStep classes)
          (classes.map fun a => classes.map fun b => f a b) =
        classes.map fun a => classes.map fun b =>
          f a b + (pairs.filter (fun q => q.1 = a ∧ q.2 = b)).length := by
  intro pairs
  induction pairs with
  | nil => intro f _; simp
  | cons p ps ih =>
      intro f hmem
      obtain ⟨hp1, hp2⟩ := hmem p (by simp)
      rw [List.foldl_cons]
      rw [show p = (p.1, p.2) from rfl,
        bump_map_form classes hnd p.1 p.2 hp1 hp2 f]
      rw [ih (fun a b => if a = p.1 ∧ b = p.2 then f a b + 1 else f a b)
        (fun q hq => hmem q (List.mem_cons_of_mem _ hq))]
      apply List.map_congr_left
      intro a _
      apply List.map_congr_left
      intro b _
      rw [List.filter_cons]
      by_cases hc : a = p.1 ∧ b = p.2
      · rw [if_pos hc, if_pos (by simp [hc.1.symm, hc.2.symm])]
        simp only [List.length_cons]
        omega
      · rw [if_neg hc]
        have hcond : ¬ (p.1 = a ∧ p.2 = b) := by
          intro hcon
          exact hc ⟨hcon.1.symm, hcon.2.symm⟩
        rw [if_neg (by simpa using hcond)]

/-! ## Claim theorems -/

/-- C1: the claim says the reported standard deviation of a numeric column
is the population standard deviation.  The code disagrees: when the std
expression is evaluated, `statistics[col]` has not been assigned yet, so
every squared-deviation term collapses to `(val - undefined) || 0 = 0` and
the reported value is `√0 = 0` for every column.  On the column `[1, 3]`
the code's radicand is `0` (reported std `0`), while the population
variance is `1` (population std `1 ≠ 0`). -/
theorem c1_std_reported_is_zero :
    reportedStdArg d13 "a" = some 0 ∧ specPopVariance [1, 3] = 1 := by
  constructor
  · with_unfolding_all decide
  · norm_num [specPopVariance]

/-- C2 counterexample: on the column `[1, 2, 3, 4]` (even count 4) the
profiler reports median `3`, the element at index `⌊4/2⌋ = 2` of the
ascending sort — the upper middle — whereas the claim's lower-middle
element is `2`. -/
theorem c2_median_counterexample :
    reportedMedian d4 "a" = some 3 ∧ ((3 : ℚ) ≠ 2) := by
  constructor
  · with_unfolding_all decide
  · norm_num

/-- C2 amended: for every column the profiler reports statistics for, the
reported median is the element at index `⌊n/2⌋` of the ascending sort of
the coerced column values — for even `n` the upper of the two middle
elements (the second conjunct: the lower-middle element is `≤` it), for odd
`n` the middle element. -/
theorem c2_median_upper_middle (data : List Row) (col : String) (a : Analysis)
    (ha : analyzeData data = Except.ok a) (s : ColumnStats)
    (hs : a.statistics.lookup col = some s) :
    s.median =
      (sortAsc (coercedValues (columnCells data col))).getD
        ((coercedValues (columnCells data col)).length / 2) 0 ∧
    ∀ k, (coercedValues (columnCells data col)).length = 2 * k + 2 →
      (sortAsc (coercedValues (columnCells data col))).getD k 0 ≤ s.median := by
  have hd : ¬ data.length = 0 := by
    intro hcon
    rw [analyzeData, if_pos hcon] at ha
    exact Except.noConfusion ha
  rw [analyzeData, if_neg hd] at ha
  injection ha with hrec
  subst hrec
  dsimp only at hs
  have hcs : colStatistics (columnCells data col) = some s :=
    lookup_statistics data col s _ hs
  rw [colStatistics] at hcs
  by_cases hlen : (coercedValues (columnCells data col)).length > 0
  · rw [if_pos hlen] at hcs
    have hsval := (Option.some.injEq _ _).mp hcs
    have hlensort : (sortAsc (coercedValues (columnCells data col))).length =
        (coercedValues (columnCells data col)).length :=
      (List.perm_insertionSort _ _).length_eq
    constructor
    · rw [← hsval]
      rw [hlensort]
    · intro k hk
      have hmed : s.median =
          (sortAsc (coercedValues (columnCells data col))).getD (k + 1) 0 := by
        rw [← hsval]
        rw [hlensort, hk]
        norm_num
      rw [hmed]
      have hsorted : List.Sorted (· ≤ ·)
          (sortAsc (coercedValues (columnCells data col))) :=
        List.sorted_insertionSort _ _
      have hklt : k < (sortAsc (coercedValues (columnCells data col))).length := by
        rw [hlensort, hk]; omega
      have hk1lt : k + 1 < (sortAsc (coercedValues (columnCells data col))).length := by
        rw [hlensort, hk]; omega
      rw [List.getD_eq_getElem?_getD, List.getD_eq_getElem?_getD,
        List.getElem?_eq_getElem hklt, List.getElem?_eq_getElem hk1lt]
      simp only [Option.getD_some]
      have := List.Sorted.rel_get_of_lt hsorted
        (show (⟨k, hklt⟩ : Fin _) < ⟨k + 1, hk1lt⟩ by simp)
      simpa [List.get_eq_getElem] using this
  · rw [if_neg hlen] at hcs
    exact Option.noConfusion hcs

/-- C2 amended, witness: instantiated on the concrete dataset `d4`. -/
theorem c2_median_upper_middle_witness :
    (statsD d4 "a").median =
      (sortAsc (coercedValues (columnCells d4 "a"))).getD
        ((coercedValues (columnCells d4 "a")).length / 2) 0 :=
  (c2_median_upper_middle d4 "a" (analysisOf d4) rfl (statsD d4 "a")
    (by with_unfolding_all decide)).1

/-- C3 counterexample: a 1000-row dataset whose target holds exactly 21
distinct numeric values.  The claim says the detector returns regression;
the code returns classification, because `21 < 10% × 1000` fires the
classification rule first. -/
theorem c3_detect_counterexample :
    big1000.length = 1000 ∧
    (dedupKeepFirst (detectorTargets big1000 "t")).length = 21 ∧
    detectProblemType big1000 "t" = ProblemType.classification ∧
    ProblemType.classification ≠ ProblemType.regression := by
  have hlen : big1000.length = 1000 := by simp [big1000]
  have hcount : (dedupKeepFirst first21).length = 21 := by
    with_unfolding_all decide
  refine ⟨hlen, by rw [dedup_targets_big1000]; exact hcount, ?_, by decide⟩
  simp only [detectProblemType]
  rw [dedup_targets_big1000, hcount, hlen, if_pos (by norm_num)]

/-- C3 amended: a target with 21 distinct values out of 1000 rows yields
classification (not regression: 21 is below 10% of 1000), and a target with
exactly 5 distinct values yields classification regardless of row count. -/
theorem c3_detect_classification (data : List Row) (target : String)
    (h : (data.length = 1000 ∧
        (dedupKeepFirst (detectorTargets data target)).length = 21) ∨
      (dedupKeepFirst (detectorTargets data target)).length = 5) :
    detectProblemType data target = ProblemType.classification := by
  simp only [detectProblemType]
  rcases h with ⟨h1000, h21⟩ | h5
  · rw [h21, h1000, if_pos (by norm_num)]
  · rw [h5, if_pos (by norm_num)]

/-- C3 amended, witness: a 5-row dataset with 5 distinct target values. -/
theorem c3_detect_witness :
    detectProblemType small5 "t" = ProblemType.classification :=
  c3_detect_classification small5 "t" (Or.inr (by with_unfolding_all decide))

/-- C4 counterexample: a row whose target is the empty string is NOT
excluded (the target guard checks only `null`/`undefined`); it is retained
with target encoded `Number('') = 0`, so the claim's required exclusion
fails. -/
theorem c4_empty_target_counterexample :
    prepareFeatures dEmptyTarget ["f"] "t" = ([[1]], [0]) ∧
    (prepareFeatures dEmptyTarget ["f"] "t").2 ≠ [] := by
  constructor
  · with_unfolding_all decide
  · with_unfolding_all decide

/-- C4 amended: the encoder drops exactly the rows with a missing feature
value (`null`/`undefined`/empty string) or a `null`/`undefined` target —
an empty-string target is retained — and each retained row contributes its
encoded features and its encoded target (the numeric value when the target
coerces, with `'' ↦ 0`, and the first character code mod 100 otherwise),
in dataset order. -/
theorem c4_prepare_features_spec (data : List Row) (featureCols : List String)
    (target : String) :
    prepareFeatures data featureCols target =
      ((data.filter (keepRow featureCols target)).map
        (fun r => featureCols.map (fun c => encodeFeature (rowGet r c))),
       (data.filter (keepRow featureCols target)).map
        (fun r => encodeTarget (rowGet r target))) ∧
    encodeTarget (CellVal.str "") = 0 ∧
    encodeTarget (CellVal.num (7 / 2)) = 7 / 2 ∧
    encodeTarget (CellVal.str "12") = 12 ∧
    encodeTarget (CellVal.str "cat") = 99 := by
  refine ⟨?_, by with_unfolding_all decide, by with_unfolding_all decide,
    by with_unfolding_all decide, by with_unfolding_all decide⟩
  unfold prepareFeatures
  rw [prepareFeatures_foldl]
  simp

/-- C5 counterexample: with labels 2 and 10 the default sort is
lexicographic on the decimal strings, so the class order is `[10, 2]`
("10" < "2"), and for actual = [2, 10], predicted = [10, 10] the code
produces `[[1, 0], [1, 0]]`, not the numeric-ascending-order matrix
`[[0, 1], [0, 1]]` the claim requires. -/
theorem c5_confusion_matrix_counterexample :
    calculateConfusionMatrix [2, 10] [10, 10] = [[1, 0], [1, 0]] ∧
    ([[1, 0], [1, 0]] : List (List ℕ)) ≠ [[0, 1], [0, 1]] := by
  constructor
  · with_unfolding_all decide
  · decide

/-- C5 amended: the confusion matrix is indexed by the distinct labels of
actual and predicted sorted lexicographically by their decimal string
forms (the JS default sort), and entry (i, j) counts exactly the aligned
positions whose actual value is the i-th class and predicted value the
j-th class; for the single-digit labels of the claim's example the order
coincides with numeric order and the matrix is `[[1, 1], [0, 2]]`. -/
theorem c5_confusion_matrix_counts (actual predicted : List ℚ) :
    calculateConfusionMatrix actual predicted =
      (classesOf actual predicted).map (fun a =>
        (classesOf actual predicted).map (fun p =>
          countPairs actual predicted a p)) ∧
    calculateConfusionMatrix [0, 1, 0, 1] [0, 1, 1, 1] = [[1, 1], [0, 2]] := by
  constructor
  · simp only [calculateConfusionMatrix]
    have hnd := nodup_classesOf actual predicted
    have hmem : ∀ p ∈ actual.zip predicted,
        p.1 ∈ classesOf actual predicted ∧ p.2 ∈ classesOf actual predicted := by
      intro p hp
      exact ⟨mem_classesOf (List.mem_append_left _ (List.of_mem_zip hp).1),
        mem_classesOf (List.mem_append_right _ (List.of_mem_zip hp).2)⟩
    have hinit : List.replicate (classesOf actual predicted).length
        (List.replicate (classesOf actual predicted).length (0 : ℕ)) =
        (classesOf actual predicted).map (fun a =>
          (classesOf actual predicted).map (fun b => (fun _ _ => (0 : ℕ)) a b)) := by
      rw [map_const_replicate, map_const_replicate]
    rw [hinit, cm_foldl (classesOf actual predicted) hnd (actual.zip predicted)
      (fun _ _ => (0 : ℕ)) hmem]
    simp [countPairs]
  · with_unfolding_all decide

/-- C6 counterexample: on the tied label list `[0, 1]` the code returns 1
(`Object.keys` enumerates integer keys in ascending order and the reduce
keeps the later key on a tie), while the claim's first-encountered rule
would return 0. -/
theorem c6_most_common_counterexample :
    getMostCommonValue [0, 1] = some 1 ∧ ((1 : ℚ) ≠ 0) := by
  constructor
  · with_unfolding_all decide
  · norm_num

/-- C6 amended: for a non-empty label list whose labels are all JS
array-index keys (canonical non-negative integers below 2^32 − 1, the case
arising from the pipeline's integer class labels), the selected label
attains the maximum occurrence count, and among labels attaining that
count it is the numerically largest — not the first encountered. -/
theorem c6_most_common_largest_maximizer (y : List ℚ) (hne : y ≠ [])
    (hidx : ∀ l ∈ y, isArrayIndex l = true) :
    ∃ r, getMostCommonValue y = some r ∧ r ∈ y ∧
      ∀ l ∈ y, countIn y l ≤ countIn y r ∧
        (countIn y l = countIn y r → l ≤ r) := by
  have hfilter : (dedupKeepFirst y).filter (fun v => isArrayIndex v) =
      dedupKeepFirst y := by
    apply List.filter_eq_self.mpr
    intro v hv
    exact hidx v (mem_dedupKeepFirst.mp hv)
  have hfilter2 : (dedupKeepFirst y).filter (fun v => ¬ isArrayIndex v) = [] := by
    apply List.filter_eq_nil.mpr
    intro v hv
    simp [hidx v (mem_dedupKeepFirst.mp hv)]
  have hkeys : objKeys y = (dedupKeepFirst y).insertionSort (· ≤ ·) := by
    simp only [objKeys]
    rw [hfilter, hfilter2, List.append_nil]
  have hperm : ((dedupKeepFirst y).insertionSort (· ≤ ·)).Perm (dedupKeepFirst y) :=
    List.perm_insertionSort _ _
  have hne2 : objKeys y ≠ [] := by
    rw [hkeys]
    intro hcon
    have h0 := hperm.length_eq
    rw [hcon] at h0
    have h1 : dedupKeepFirst y = [] := List.length_eq_zero.mp h0.symm
    exact dedupKeepFirst_ne_nil hne h1
  obtain ⟨k, ks, hcons⟩ := List.exists_cons_of_ne_nil hne2
  have hsorted : List.Sorted (· ≤ ·) (k :: ks) := by
    rw [← hcons, hkeys]
    exact List.sorted_insertionSort _ _
  obtain ⟨hmem, hmax, htie⟩ := champion_spec y ks k hsorted
  have hval : getMostCommonValue y =
      some (ks.foldl (fun a b => if countIn y a > countIn y b then a else b) k) := by
    unfold getMostCommonValue
    rw [hcons]
  have hmemy : ∀ b, b ∈ k :: ks → b ∈ y := by
    intro b hb
    rw [← hcons, hkeys] at hb
    exact mem_dedupKeepFirst.mp (hperm.mem_iff.mp hb)
  have hymem : ∀ l ∈ y, l ∈ k :: ks := by
    intro l hl
    rw [← hcons, hkeys]
    exact hperm.mem_iff.mpr (mem_dedupKeepFirst.mpr hl)
  refine ⟨_, hval, hmemy _ hmem, ?_⟩
  intro l hl
  exact ⟨hmax l (hymem l hl), htie l (hymem l hl)⟩

/-- C6 amended, witness: on `[3, 5, 5, 3, 4]` (3 and 5 tied with count 2)
the selected label is 5, the largest maximizer. -/
theorem c6_most_common_witness :
    ∃ r, getMostCommonValue [3, 5, 5, 3, 4] = some r ∧
      r ∈ ([3, 5, 5, 3, 4] : List ℚ) ∧
      ∀ l ∈ ([3, 5, 5, 3, 4] : List ℚ),
        countIn [3, 5, 5, 3, 4] l ≤ countIn [3, 5, 5, 3, 4] r ∧
          (countIn [3, 5, 5, 3, 4] l = countIn [3, 5, 5, 3, 4] r → l ≤ r) :=
  c6_most_common_largest_maximizer [3, 5, 5, 3, 4]
    (by simp) (by with_unfolding_all decide)

lemma isNumericalCol_iff (cells : List CellVal) :
    isNumericalCol cells = true ↔
      5 * (numericCells cells).length > 4 * (nonNullCells cells).length := by
  unfold isNumericalCol
  rw [decide_eq_true_eq]
  rw [show (0.8 : ℚ) = 4 / 5 by norm_num]
  rw [gt_iff_lt, gt_iff_lt]
  rw [show ((nonNullCells cells).length : ℚ) * (4 / 5) =
    ((4 * (nonNullCells cells).length : ℕ) : ℚ) / 5 by push_cast; ring]
  rw [div_lt_iff (by norm_num : (0 : ℚ) < 5)]
  rw [show ((numericCells cells).length : ℚ) * 5 =
    ((5 * (numericCells cells).length : ℕ) : ℚ) by push_cast; ring]
  exact_mod_cast Iff.rfl

/-- C7: a column lands in the profiler's numeric list exactly when its
numeric non-missing count strictly exceeds 80% of its non-missing count
(`5·numeric > 4·nonMissing`); in particular a 5-value column with exactly
4 numeric values (80%) is categorical, and a 100-value column with 81
numeric values (81%) is numeric. -/
theorem c7_numeric_threshold :
    (∀ (data : List Row) (a : Analysis) (col : String),
      analyzeData data = Except.ok a →
      (col ∈ a.numericalColumns ↔ col ∈ a.columns ∧
        5 * (numericCells (columnCells data col)).length >
          4 * (nonNullCells (columnCells data col)).length)) ∧
    "a" ∈ (analysisOf d80).categoricalColumns ∧
    "a" ∉ (analysisOf d80).numericalColumns ∧
    "a" ∈ (analysisOf d81).numericalColumns := by
  refine ⟨?_, by with_unfolding_all decide, by with_unfolding_all decide,
    by with_unfolding_all decide⟩
  intro data a col ha
  have hd : ¬ data.length = 0 := by
    intro hcon
    rw [analyzeData, if_pos hcon] at ha
    exact Except.noConfusion ha
  rw [analyzeData, if_neg hd] at ha
  injection ha with hrec
  subst hrec
  dsimp only
  rw [List.mem_filter]
  exact and_congr_right (fun _ => isNumericalCol_iff _)

/-- C7 witness: the threshold characterisation applied to the concrete
80%-numeric dataset. -/
theorem c7_numeric_threshold_witness :
    "a" ∈ (analysisOf d80).numericalColumns ↔
      "a" ∈ (analysisOf d80).columns ∧
        5 * (numericCells (columnCells d80 "a")).length >
          4 * (nonNullCells (columnCells d80 "a")).length :=
  (c7_numeric_threshold.1) d80 (analysisOf d80) "a" (by with_unfolding_all rfl)

/-- C8: the pipeline's split index is `⌊0.8·n⌋ = 4n/5`; the training part
is exactly the first `4n/5` rows in original order and the held-out part
exactly the remaining rows in original order, for features and targets
alike (the `getElem?` characterisations pin each position).  The split is
a pure function of its input, hence trivially deterministic. -/
theorem c8_split_first_80_percent (X : List (List ℚ)) (y : List ℚ) :
    splitIndex X.length = 4 * X.length / 5 ∧
    (trainSplit X y).1 ++ (trainSplit X y).2.2.1 = X ∧
    (trainSplit X y).2.1 ++ (trainSplit X y).2.2.2 = y ∧
    (trainSplit X y).1.length = min (4 * X.length / 5) X.length ∧
    (∀ i, (trainSplit X y).1[i]? =
      if i < 4 * X.length / 5 then X[i]? else none) ∧
    (∀ j, (trainSplit X y).2.2.1[j]? = X[4 * X.length / 5 + j]?) ∧
    (∀ i, (trainSplit X y).2.1[i]? =
      if i < 4 * X.length / 5 then y[i]? else none) ∧
    (∀ j, (trainSplit X y).2.2.2[j]? = y[4 * X.length / 5 + j]?) := by
  have hk : splitIndex X.length = 4 * X.length / 5 := by
    unfold splitIndex
    rw [show ((X.length : ℚ) * (0.8 : ℚ)) =
      ((4 * X.length : ℕ) : ℚ) / ((5 : ℕ) : ℚ) by
        rw [show (0.8 : ℚ) = 4 / 5 by norm_num]; push_cast; ring]
    rw [Nat.floor_div_nat, Nat.floor_natCast]
  refine ⟨hk, ?_, ?_, ?_, ?_, ?_, ?_, ?_⟩
  · simp [trainSplit]
  · simp [trainSplit]
  · simp [trainSplit, hk]
  · intro i
    simp only [trainSplit]
    rw [hk]
    by_cases hi : i < 4 * X.length / 5
    · rw [if_pos hi, List.getElem?_take_of_lt hi]
    · rw [if_neg hi]
      apply List.getElem?_eq_none
      have hlt := List.length_take (4 * X.length / 5) X
      omega
  · intro j
    simp only [trainSplit]
    rw [hk, List.getElem?_drop]
  · intro i
    simp only [trainSplit]
    rw [hk]
    by_cases hi : i < 4 * X.length / 5
    · rw [if_pos hi, List.getElem?_take_of_lt hi]
    · rw [if_neg hi]
      apply List.getElem?_eq_none
      have hlt := List.length_take (4 * X.length / 5) y
      omega
  · intro j
    simp only [trainSplit]
    rw [hk, List.getElem?_drop]

/-- C9: the profiler fails — with its only error, the empty-dataset error —
exactly on the empty dataset, and returns an analysis record on every
non-empty one. -/
theorem c9_empty_dataset_error (data : List Row) :
    (analyzeData data = Except.error AnalysisError.emptyDataset ↔ data = []) ∧
    (data ≠ [] → ∃ a, analyzeData data = Except.ok a) := by
  constructor
  · constructor
    · intro h
      by_contra hne
      have hd : ¬ data.length = 0 := by
        intro hcon
        exact hne (List.length_eq_zero.mp hcon)
      rw [analyzeData, if_neg hd] at h
      exact Except.noConfusion h
    · intro h
      subst h
      rfl
  · intro hne
    have hd : ¬ data.length = 0 := fun hcon => hne (List.length_eq_zero.mp hcon)
    rw [analyzeData, if_neg hd]
    exact ⟨_, rfl⟩

/-- C9 witness: the one-column dataset `d4` is analysed without error. -/
theorem c9_empty_dataset_witness :
    ∃ a, analyzeData d4 = Except.ok a :=
  (c9_empty_dataset_error d4).2 (by simp [d4])

/-- C10: a model-type token matching no dispatch entry for the given
problem type raises nothing: the pipeline returns a record whose model
name is the empty string and whose prediction list is empty (the
initialisers `modelName = ''`, `predictions = []` are never overwritten). -/
theorem c10_unmatched_token (ext : ExternalModels) (sig : ℚ → ℚ)
    (X : List (List ℚ)) (y : List ℚ) (pt : ProblemType) (modelType : String)
    (_hX : X ≠ []) (_hy : y ≠ [])
    (hcls : pt = ProblemType.classification →
      modelType ≠ "logistic" ∧ modelType ≠ "auto" ∧
      modelType ≠ "decisiontree" ∧ modelType ≠ "randomforest")
    (hreg : pt = ProblemType.regression →
      modelType ≠ "linear" ∧ modelType ≠ "auto" ∧ modelType ≠ "randomforest") :
    ∃ r, trainModel ext sig X y pt modelType = Except.ok r ∧
      r.model = "" ∧ r.predictions = [] := by
  cases pt with
  | classification =>
      obtain ⟨h1, h2, h3, h4⟩ := hcls rfl
      have hdisp : dispatchModel ext sig (trainSplit X y).1 (trainSplit X y).2.1
          (trainSplit X y).2.2.1 ProblemType.classification modelType =
          Except.ok ("", []) := by
        simp only [dispatchModel]
        rw [if_neg (by simp [h1, h2]), if_neg h3, if_neg h4]
      simp only [trainModel, hdisp]
      exact ⟨_, rfl, rfl, rfl⟩
  | regression =>
      obtain ⟨h1, h2, h3⟩ := hreg rfl
      have hdisp : dispatchModel ext sig (trainSplit X y).1 (trainSplit X y).2.1
          (trainSplit X y).2.2.1 ProblemType.regression modelType =
          Except.ok ("", []) := by
        simp only [dispatchModel]
        rw [if_neg (by simp [h1, h2]), if_neg h3]
      simp only [trainModel, hdisp]
      exact ⟨_, rfl, rfl, rfl⟩

/-- C10 witness: classification with token `linear` on a one-row input. -/
theorem c10_unmatched_token_witness :
    ∃ r, trainModel trivialModels id [[1]] [0] ProblemType.classification
        "linear" = Except.ok r ∧ r.model = "" ∧ r.predictions = [] :=
  c10_unmatched_token trivialModels id [[1]] [0] ProblemType.classification
    "linear" (by simp) (by simp)
    (fun _ => ⟨by decide, by decide, by decide, by decide⟩)
    (fun h => ProblemType.noConfusion h)
